import Mathlib

/-!
Shallow embedding of the StrandsInputServer subsystem
(`StrandsInputServerSubsystem.cpp` / `.h`): a TCP line-protocol server that
ingests newline-delimited JSON commands, schedules time-windowed and latched
actions, and applies them to a controlled character once per frame.

Conventions of the embedding:
* C++ `double`/`float` values are modelled as `Rat` (exact arithmetic; the
  claims under verification are structural and do not depend on IEEE
  rounding).
* `TArray` pools are modelled as `List`; the C++ backwards iteration with
  `RemoveAtSwap` visits each element exactly once and keeps exactly the
  non-expired entries (in a permuted order); the embedding keeps them in
  order, which is sound because the pools are order-insensitive multisets
  (they are only summed).
* Engine-side code that is not part of the repository (UE's `FJsonSerializer`
  and `FJsonObject` field accessors, sockets, line traces) is modelled
  explicitly; such definitions carry a `Modelled from the spec:` doc comment.
-/

namespace Strands

/-- ASCII lower-casing, as UE's case-insensitive `FString::Equals` uses. -/
def asciiLower (c : Char) : Char :=
  if 'A' ≤ c ∧ c ≤ 'Z' then Char.ofNat (c.toNat + 32) else c

/-- Case-insensitive string equality (`FString::Equals` with
`ESearchCase::IgnoreCase`). -/
def strEqCI (a b : String) : Bool :=
  a.data.map asciiLower == b.data.map asciiLower

/-- Whitespace recognised by `FString::TrimStartAndEndInline`
(`FChar::IsWhitespace`): space, tab, LF, VT, FF, CR. -/
def isUEWhitespace (c : Char) : Bool :=
  c == ' ' || c == '\t' || c == '\n' || c == '\x0b' || c == '\x0c' || c == '\x0d'

/-- Trim leading and trailing whitespace (`TrimStartAndEndInline`). -/
def trimStartAndEnd (cs : List Char) : List Char :=
  ((cs.dropWhile isUEWhitespace).reverse.dropWhile isUEWhitespace).reverse

/-- Split an accumulator at its first `\n` (`FString::FindChar(TEXT('\n'))`
followed by `Left`/`RemoveAt`): returns the part before the newline and the
part after it, or `none` when no newline is present. -/
def breakAtNewline : List Char → Option (List Char × List Char)
  | [] => none
  | c :: cs =>
    if c = '\n' then some ([], cs)
    else
      match breakAtNewline cs with
      | none => none
      | some (l, r) => some (c :: l, r)

/-- Work loop of `Strands_SplitLines`, with an explicit recursion bound:
each cut removes at least the newline character, so the accumulator length
bounds the number of iterations, and callers pass `length + 1` as fuel
(`splitLinesGo_fuel` shows any adequate fuel gives the same result). -/
def splitLinesGo : Nat → List Char → List (List Char) × List Char
  | 0, acc => ([], acc)
  | fuel + 1, acc =>
    match breakAtNewline acc with
    | none => ([], acc)
    | some (line, rest) =>
      let res := splitLinesGo fuel rest
      let trimmed := trimStartAndEnd line
      if trimmed.isEmpty then res
      else
        let final :=
          if trimmed.getLast? == some '\x0d' then trimmed.dropLast else trimmed
        (final :: res.1, res.2)

/-- Embedding of `Strands_SplitLines`: repeatedly cut the accumulator at the
first `\n`; trim each candidate line; when non-empty, strip one trailing
`\r` and emit it.  Returns the emitted frames and the leftover accumulator
(the bytes after the last newline). -/
def strandsSplitLines (accumulator : List Char) : List (List Char) × List Char :=
  splitLinesGo (accumulator.length + 1) accumulator

/-- One entry of the Move pool (`FStrandsMoveAction`): an `(forward, right)`
axis vector and an absolute expiry time. -/
structure MoveAction where
  axisForward : Rat
  axisRight : Rat
  endTime : Rat
deriving DecidableEq

/-- One entry of the Look pool (`FStrandsLookAction`): yaw/pitch rates in
degrees per second and an absolute expiry time. -/
structure LookAction where
  yawRate : Rat
  pitchRate : Rat
  endTime : Rat
deriving DecidableEq

/-- The scheduler state owned by `UStrandsInputServerSubsystem`: the two
timed-action pools, the pending jump counter and the sprint latch. -/
structure SchedulerState where
  moveActions : List MoveAction
  lookActions : List LookAction
  pendingJumpCount : Nat
  pendingSprintEnabled : Option Bool
deriving DecidableEq

/-- Scheduler state at server start: empty pools, zero counter, unset latch. -/
def emptyScheduler : SchedulerState :=
  { moveActions := [], lookActions := [], pendingJumpCount := 0,
    pendingSprintEnabled := none }

/-- Cached settings snapshotted at `Initialize` (plus the engine-provided
default output paths used by `ProcessLine`). -/
structure Config where
  defaultMoveDuration : Rat
  defaultLookDuration : Rat
  normalWalkSpeed : Rat
  sprintWalkSpeed : Rat
  defaultScreenshotPath : String
  defaultStatePath : String
deriving DecidableEq

/-- Embedding of `FMath::Clamp(X, -1.f, 1.f)`. -/
def clampUnit (x : Rat) : Rat :=
  if x < -1 then -1 else if x < 1 then x else 1

/-- JSON values, as produced by the engine's JSON module (`FJsonValue`). -/
inductive JsonValue where
  | jnull
  | jbool (b : Bool)
  | jnum (q : Rat)
  | jstr (s : String)
  | jarr (elems : List JsonValue)
  | jobj (fields : List (String × JsonValue))

/-- JSON whitespace (space, tab, LF, CR). -/
def isJsonWs (c : Char) : Bool :=
  c == ' ' || c == '\t' || c == '\n' || c == '\x0d'

/-- Skip leading JSON whitespace. -/
def skipWs : List Char → List Char
  | [] => []
  | c :: cs => if isJsonWs c then skipWs cs else c :: cs

/-- Value of a hexadecimal digit, if any. -/
def hexDigitVal (c : Char) : Option Nat :=
  if '0' ≤ c ∧ c ≤ '9' then some (c.toNat - '0'.toNat)
  else if 'a' ≤ c ∧ c ≤ 'f' then some (c.toNat - 'a'.toNat + 10)
  else if 'A' ≤ c ∧ c ≤ 'F' then some (c.toNat - 'A'.toNat + 10)
  else none

/-- Parse the body of a JSON string after the opening quote: returns the
content and the remainder after the closing quote. -/
def parseStringBody : List Char → Option (List Char × List Char)
  | [] => none
  | '"' :: rest => some ([], rest)
  | '\\' :: 'u' :: h1 :: h2 :: h3 :: h4 :: rest =>
    match hexDigitVal h1, hexDigitVal h2, hexDigitVal h3, hexDigitVal h4 with
    | some a, some b, some c, some d =>
      (parseStringBody rest).map
        (fun p => (Char.ofNat (((a * 16 + b) * 16 + c) * 16 + d) :: p.1, p.2))
    | _, _, _, _ => none
  | '\\' :: e :: rest =>
    let esc : Option Char :=
      if e = '"' then some '"'
      else if e = '\\' then some '\\'
      else if e = '/' then some '/'
      else if e = 'b' then some '\x08'
      else if e = 'f' then some '\x0c'
      else if e = 'n' then some '\n'
      else if e = 'r' then some '\x0d'
      else if e = 't' then some '\t'
      else none
    match esc with
    | none => none
    | some c => (parseStringBody rest).map (fun p => (c :: p.1, p.2))
  | c :: rest => (parseStringBody rest).map (fun p => (c :: p.1, p.2))

/-- Take leading decimal digits as a list of values. -/
def takeDigits : List Char → List Nat × List Char
  | [] => ([], [])
  | c :: cs =>
    if '0' ≤ c ∧ c ≤ '9' then
      let p := takeDigits cs
      ((c.toNat - '0'.toNat) :: p.1, p.2)
    else ([], c :: cs)

/-- Combine a digit list into a natural number. -/
def digitsToNat (ds : List Nat) : Nat :=
  ds.foldl (fun acc d => acc * 10 + d) 0

/-- Parse a JSON number (sign, integer part, optional fraction, optional
exponent) into an exact rational. -/
def parseNumber (cs : List Char) : Option (Rat × List Char) :=
  let (neg, cs1) :=
    match cs with
    | '-' :: rest => (true, rest)
    | _ => (false, cs)
  let (intDs, cs2) := takeDigits cs1
  if intDs.isEmpty then none
  else
    let (fracDs, cs3) :=
      match cs2 with
      | '.' :: rest =>
        let p := takeDigits rest
        if p.1.isEmpty then ([], cs2) else (p.1, p.2)
      | _ => ([], cs2)
    let (expNeg, expDs, cs4) :=
      match cs3 with
      | 'e' :: '-' :: rest => (true, (takeDigits rest).1, (takeDigits rest).2)
      | 'e' :: '+' :: rest => (false, (takeDigits rest).1, (takeDigits rest).2)
      | 'e' :: rest => (false, (takeDigits rest).1, (takeDigits rest).2)
      | 'E' :: '-' :: rest => (true, (takeDigits rest).1, (takeDigits rest).2)
      | 'E' :: '+' :: rest => (false, (takeDigits rest).1, (takeDigits rest).2)
      | 'E' :: rest => (false, (takeDigits rest).1, (takeDigits rest).2)
      | _ => (false, [], cs3)
    let base : Rat :=
      (digitsToNat intDs : Rat) +
        (digitsToNat fracDs : Rat) / ((10 : Rat) ^ fracDs.length)
    let scaled : Rat :=
      if expNeg then base / ((10 : Rat) ^ digitsToNat expDs)
      else base * ((10 : Rat) ^ digitsToNat expDs)
    some ((if neg then -scaled else scaled), cs4)

/-- Check that the input starts with the given literal and return the rest. -/
def expectLit : List Char → List Char → Option (List Char)
  | [], rest => some rest
  | _, [] => none
  | l :: ls, c :: cs => if l = c then expectLit ls cs else none

mutual

/-- Modelled from the spec: the engine JSON parser (`TJsonReader` /
`FJsonSerializer`, not under `src/`): recursive-descent parse of one JSON
value.  `fuel` bounds recursion depth; callers supply more fuel than the
input length, so exhaustion never occurs on real input. -/
def parseValue : Nat → List Char → Option (JsonValue × List Char)
  | 0, _ => none
  | fuel + 1, cs =>
    match skipWs cs with
    | [] => none
    | c :: rest =>
      if c = '"' then
        (parseStringBody rest).map (fun p => (JsonValue.jstr (String.mk p.1), p.2))
      else if c = '\x7b' then
        parseMembers fuel (skipWs rest) true
      else if c = '[' then
        parseElements fuel (skipWs rest) true
      else if c = 't' then
        (expectLit [ 'r', 'u', 'e' ] rest).map (fun r => (JsonValue.jbool true, r))
      else if c = 'f' then
        (expectLit [ 'a', 'l', 's', 'e' ] rest).map (fun r => (JsonValue.jbool false, r))
      else if c = 'n' then
        (expectLit [ 'u', 'l', 'l' ] rest).map (fun r => (JsonValue.jnull, r))
      else
        (parseNumber (c :: rest)).map (fun p => (JsonValue.jnum p.1, p.2))

/-- Parse the members of a JSON object after the opening brace (whitespace
already skipped); `first` is true before the first member. -/
def parseMembers : Nat → List Char → Bool → Option (JsonValue × List Char)
  | 0, _, _ => none
  | fuel + 1, cs, first =>
    match cs with
    | '\x7d' :: rest => if first then some (JsonValue.jobj [], rest) else none
    | _ =>
      match parseMemberList fuel cs with
      | none => none
      | some (fields, rest) => some (JsonValue.jobj fields, rest)

/-- Parse one or more `"key": value` members separated by commas, ending at
the closing brace. -/
def parseMemberList : Nat → List Char → Option (List (String × JsonValue) × List Char)
  | 0, _ => none
  | fuel + 1, cs =>
    match cs with
    | '"' :: rest =>
      match parseStringBody rest with
      | none => none
      | some (key, afterKey) =>
        match skipWs afterKey with
        | ':' :: afterColon =>
          match parseValue fuel afterColon with
          | none => none
          | some (v, afterVal) =>
            match skipWs afterVal with
            | ',' :: afterComma =>
              match parseMemberList fuel (skipWs afterComma) with
              | none => none
              | some (fields, rest2) => some ((String.mk key, v) :: fields, rest2)
            | '\x7d' :: rest2 => some ([ (String.mk key, v) ], rest2)
            | _ => none
        | _ => none
    | _ => none

/-- Parse the elements of a JSON array after the opening bracket (whitespace
already skipped); `first` is true before the first element. -/
def parseElements : Nat → List Char → Bool → Option (JsonValue × List Char)
  | 0, _, _ => none
  | fuel + 1, cs, first =>
    match cs with
    | ']' :: rest => if first then some (JsonValue.jarr [], rest) else none
    | _ =>
      match parseElementList fuel cs with
      | none => none
      | some (elems, rest) => some (JsonValue.jarr elems, rest)

/-- Parse one or more array elements separated by commas, ending at the
closing bracket. -/
def parseElementList : Nat → List Char → Option (List JsonValue × List Char)
  | 0, _ => none
  | fuel + 1, cs =>
    match parseValue fuel cs with
    | none => none
    | some (v, afterVal) =>
      match skipWs afterVal with
      | ',' :: afterComma =>
        match parseElementList fuel (skipWs afterComma) with
        | none => none
        | some (elems, rest) => some (v :: elems, rest)
      | ']' :: rest => some ([ v ], rest)
      | _ => none

end

/-- Modelled from the spec: `FJsonSerializer::Deserialize` into a
`TSharedPtr<FJsonObject>` (engine Json module, not under `src/`): the parse
succeeds exactly when the whole line is a single JSON object (possibly
surrounded by whitespace); otherwise the frame is a protocol error. -/
def deserializeObject (line : List Char) : Option (List (String × JsonValue)) :=
  match parseValue (line.length + 1) line with
  | some (JsonValue.jobj fields, rest) =>
    if (skipWs rest).isEmpty then some fields else none
  | _ => none

/-- Modelled from the spec: `FJsonObject` field lookup (engine `TMap` keyed
by `FString`, whose comparison is case-insensitive; a duplicate key
overwrites, so the last occurrence wins). -/
def getField? (fields : List (String × JsonValue)) (name : String) : Option JsonValue :=
  (fields.reverse.find? (fun p => strEqCI p.1 name)).map (fun p => p.2)

/-- Embedding of `FJsonObject::HasField`. -/
def hasField (fields : List (String × JsonValue)) (name : String) : Bool :=
  (getField? fields name).isSome

/-- Embedding of `HasTypedField<EJson::Number>`. -/
def hasTypedNumberField (fields : List (String × JsonValue)) (name : String) : Bool :=
  match getField? fields name with
  | some (JsonValue.jnum _) => true
  | _ => false

/-- Embedding of `HasTypedField<EJson::String>`. -/
def hasTypedStringField (fields : List (String × JsonValue)) (name : String) : Bool :=
  match getField? fields name with
  | some (JsonValue.jstr _) => true
  | _ => false

/-- Embedding of `HasTypedField<EJson::Boolean>`. -/
def hasTypedBoolField (fields : List (String × JsonValue)) (name : String) : Bool :=
  match getField? fields name with
  | some (JsonValue.jbool _) => true
  | _ => false

/-- Modelled from the spec: `GetNumberField` — every call site guards with
`HasTypedField<EJson::Number>`, so only the number branch is exercised; a
missing or mistyped field yields the engine default `0`. -/
def getNumberField (fields : List (String × JsonValue)) (name : String) : Rat :=
  match getField? fields name with
  | some (JsonValue.jnum q) => q
  | _ => 0

/-- Modelled from the spec: `GetStringField` — returns the string value of
the field; for a missing or non-string field the engine yields a string that
matches no known command name, modelled as the empty string. -/
def getStringField (fields : List (String × JsonValue)) (name : String) : String :=
  match getField? fields name with
  | some (JsonValue.jstr s) => s
  | _ => ""

/-- Embedding of `GetBoolField` at its guarded call site
(`HasTypedField<EJson::Boolean>` checked first). -/
def getBoolField (fields : List (String × JsonValue)) (name : String) : Bool :=
  match getField? fields name with
  | some (JsonValue.jbool b) => b
  | _ => false

/-- Modelled from the spec: `FJsonObject::TryGetBoolField` under the spec's
rule that `Sprint.enabled` must be a boolean — succeeds exactly on a boolean
field ("if absent or not boolean, treat the whole command as a no-op"). -/
def tryGetBoolField (fields : List (String × JsonValue)) (name : String) : Option Bool :=
  match getField? fields name with
  | some (JsonValue.jbool b) => some b
  | _ => none

/-- Side effects of `ProcessLine` other than scheduler mutation: screenshot
requests `(path, showUI)` and world-state file writes (path), in order. -/
structure IngestEffects where
  screenshots : List (String × Bool)
  stateWrites : List String
deriving DecidableEq

/-- No effects yet. -/
def noEffects : IngestEffects := { screenshots := [], stateWrites := [] }

/-- Embedding of the dispatch body of
`UStrandsInputServerSubsystem::ProcessLine` after a successful JSON parse:
mutate the scheduler state and record output requests, exactly as the
`move` / `look` / `jump` / `sprint` / `screenshot` / `state` branches do. -/
def processParsed (cfg : Config) (now : Rat) (obj : List (String × JsonValue))
    (st : SchedulerState) (eff : IngestEffects) : SchedulerState × IngestEffects :=
  let cmd := getStringField obj "cmd"
  if strEqCI cmd "move" then
    let forward := if hasTypedNumberField obj "forward" then getNumberField obj "forward" else 0
    let right := if hasTypedNumberField obj "right" then getNumberField obj "right" else 0
    let duration :=
      if hasTypedNumberField obj "duration" then getNumberField obj "duration"
      else cfg.defaultMoveDuration
    ({ st with moveActions :=
        st.moveActions ++
          [ { axisForward := forward, axisRight := right,
              endTime := now + max 0 duration } ] }, eff)
  else if strEqCI cmd "look" then
    let yawRate := if hasTypedNumberField obj "yawRate" then getNumberField obj "yawRate" else 0
    let pitchRate := if hasTypedNumberField obj "pitchRate" then getNumberField obj "pitchRate" else 0
    let duration :=
      if hasTypedNumberField obj "duration" then getNumberField obj "duration"
      else cfg.defaultLookDuration
    ({ st with lookActions :=
        st.lookActions ++
          [ { yawRate := yawRate, pitchRate := pitchRate,
              endTime := now + max 0 duration } ] }, eff)
  else if strEqCI cmd "jump" then
    ({ st with pendingJumpCount := st.pendingJumpCount + 1 }, eff)
  else if strEqCI cmd "sprint" then
    if hasField obj "enabled" then
      match tryGetBoolField obj "enabled" with
      | some b => ({ st with pendingSprintEnabled := some b }, eff)
      | none => (st, eff)
    else (st, eff)
  else if strEqCI cmd "screenshot" then
    let path :=
      if hasTypedStringField obj "path" then getStringField obj "path"
      else cfg.defaultScreenshotPath
    let showUI :=
      if hasTypedBoolField obj "showUI" then getBoolField obj "showUI" else false
    (st, { eff with screenshots := eff.screenshots ++ [ (path, showUI) ] })
  else if strEqCI cmd "state" then
    let path :=
      if hasTypedStringField obj "path" then getStringField obj "path"
      else cfg.defaultStatePath
    (st, { eff with stateWrites := eff.stateWrites ++ [ path ] })
  else
    (st, eff)

/-- Embedding of `UStrandsInputServerSubsystem::ProcessLine`: deserialize
the line; a parse failure only logs a warning and returns; otherwise
dispatch on the (case-insensitive) `cmd` field. -/
def processLine (cfg : Config) (now : Rat) (line : List Char)
    (st : SchedulerState) (eff : IngestEffects) : SchedulerState × IngestEffects :=
  match deserializeObject line with
  | none => (st, eff)
  | some obj => processParsed cfg now obj st eff

/-- Process a batch of frames in order (the per-chunk loop over
`Strands_SplitLines` output). -/
def processLines (cfg : Config) (now : Rat) (lines : List (List Char))
    (st : SchedulerState) (eff : IngestEffects) : SchedulerState × IngestEffects :=
  match lines with
  | [] => (st, eff)
  | l :: ls =>
    let p := processLine cfg now l st eff
    processLines cfg now ls p.1 p.2

/-- The typed Command union of the spec's Command Decoder (§3, §4.3). -/
inductive Command where
  | move (forward right duration : Rat)
  | look (yawRate pitchRate duration : Rat)
  | jump
  | sprint (enabled : Bool)
  | screenshot (path : String) (showUI : Bool)
  | stateSnapshot (path : String)
deriving DecidableEq

/-- Decoder view of `ProcessLine`: the same parse and field-extraction rules
as `processParsed`, but returning the decoded `Command` instead of mutating
state; lines that `ProcessLine` drops (parse failure, unknown `cmd`,
sprint without a boolean `enabled`) decode to `none`. -/
def decodeLine (cfg : Config) (line : List Char) : Option Command :=
  match deserializeObject line with
  | none => none
  | some obj =>
    let cmd := getStringField obj "cmd"
    if strEqCI cmd "move" then
      let forward := if hasTypedNumberField obj "forward" then getNumberField obj "forward" else 0
      let right := if hasTypedNumberField obj "right" then getNumberField obj "right" else 0
      let duration :=
        if hasTypedNumberField obj "duration" then getNumberField obj "duration"
        else cfg.defaultMoveDuration
      some (Command.move forward right duration)
    else if strEqCI cmd "look" then
      let yawRate := if hasTypedNumberField obj "yawRate" then getNumberField obj "yawRate" else 0
      let pitchRate := if hasTypedNumberField obj "pitchRate" then getNumberField obj "pitchRate" else 0
      let duration :=
        if hasTypedNumberField obj "duration" then getNumberField obj "duration"
        else cfg.defaultLookDuration
      some (Command.look yawRate pitchRate duration)
    else if strEqCI cmd "jump" then
      some Command.jump
    else if strEqCI cmd "sprint" then
      if hasField obj "enabled" then
        match tryGetBoolField obj "enabled" with
        | some b => some (Command.sprint b)
        | none => none
      else none
    else if strEqCI cmd "screenshot" then
      let path :=
        if hasTypedStringField obj "path" then getStringField obj "path"
        else cfg.defaultScreenshotPath
      let showUI :=
        if hasTypedBoolField obj "showUI" then getBoolField obj "showUI" else false
      some (Command.screenshot path showUI)
    else if strEqCI cmd "state" then
      let path :=
        if hasTypedStringField obj "path" then getStringField obj "path"
        else cfg.defaultStatePath
      some (Command.stateSnapshot path)
    else none

/-- Embedding of the Move-pool sweep in `ApplyScheduledActions`: the C++
loop walks the pool once, removes (`RemoveAtSwap`) every entry with
`EndTime <= Now` and adds the axis of each survivor to the running sum.
Returns the surviving pool together with the forward and right sums. -/
def sweepMove (now : Rat) : List MoveAction → List MoveAction × Rat × Rat
  | [] => ([], 0, 0)
  | a :: rest =>
    let r := sweepMove now rest
    if a.endTime ≤ now then r
    else (a :: r.1, r.2.1 + a.axisForward, r.2.2 + a.axisRight)

/-- Embedding of the Look-pool sweep in `ApplyScheduledActions` (same shape
as the Move sweep; rates are deg/sec and the sum is not clamped). -/
def sweepLook (now : Rat) : List LookAction → List LookAction × Rat × Rat
  | [] => ([], 0, 0)
  | a :: rest =>
    let r := sweepLook now rest
    if a.endTime ≤ now then r
    else (a :: r.1, r.2.1 + a.yawRate, r.2.2 + a.pitchRate)

/-- Embedding of `FVector2D::IsNearlyZero` with the default tolerance
`KINDA_SMALL_NUMBER = 1.e-4`. -/
def isNearlyZero (x y : Rat) : Bool :=
  |x| ≤ 1 / 10000 ∧ |y| ≤ 1 / 10000

/-- The controlled character (`ACharacter` reached through the first player
controller), as far as the subsystem touches it: its movement component (may
be absent) carrying `MaxWalkSpeed`. -/
structure ControlledCharacter where
  hasMoveComp : Bool
  maxWalkSpeed : Rat
deriving DecidableEq

/-- The slice of the world the apply pass reads: the possessed character, if
any, and whether a (non-character) pawn is possessed otherwise
(`Strands_GetControlledCharacter` / `Strands_GetControlledPawn`). -/
structure World where
  character : Option ControlledCharacter
  pawnWithoutCharacter : Bool
deriving DecidableEq

/-- A pawn is available when a character is possessed, or a bare pawn is
(`Pawn = Character ? Character : Strands_GetControlledPawn(...)`). -/
def World.pawnPresent (w : World) : Bool :=
  w.character.isSome || w.pawnWithoutCharacter

/-- Result of one `ApplyScheduledActions` pass: the updated scheduler state
plus the resolved axes and what was actually applied to the entity. -/
structure ApplyOutcome where
  sched : SchedulerState
  moveAxis : Rat × Rat
  lookRate : Rat × Rat
  moveInputApplied : Option (Rat × Rat)
  jumpInvocations : Nat
  lookInputApplied : Option (Rat × Rat)
deriving DecidableEq

/-- Embedding of `UStrandsInputServerSubsystem::ApplyScheduledActions`:
sweep both pools against `Now`, clamp the move sum per component to
`[-1, 1]`, then apply: movement input and jumps only when a character is
possessed (the jump counter is reset inside that branch), look input scaled
by the frame delta whenever any pawn is possessed. -/
def applyScheduledActions (now dt : Rat) (st : SchedulerState) (w : World) : ApplyOutcome :=
  let ms := sweepMove now st.moveActions
  let moveAxis := (clampUnit ms.2.1, clampUnit ms.2.2)
  let ls := sweepLook now st.lookActions
  let lookRate := (ls.2.1, ls.2.2)
  let charPresent := w.character.isSome
  let moveInputApplied :=
    if charPresent ∧ ¬ isNearlyZero moveAxis.1 moveAxis.2 then some moveAxis else none
  let jumpInvocations :=
    if charPresent ∧ st.pendingJumpCount > 0 then st.pendingJumpCount else 0
  let newJumpCount :=
    if charPresent ∧ st.pendingJumpCount > 0 then 0 else st.pendingJumpCount
  let lookInputApplied :=
    if w.pawnPresent ∧ ¬ isNearlyZero lookRate.1 lookRate.2 then
      some (lookRate.1 * dt, lookRate.2 * dt)
    else none
  { sched :=
      { st with moveActions := ms.1, lookActions := ls.1,
                pendingJumpCount := newJumpCount },
    moveAxis := moveAxis, lookRate := lookRate,
    moveInputApplied := moveInputApplied,
    jumpInvocations := jumpInvocations,
    lookInputApplied := lookInputApplied }

/-- Embedding of `UStrandsInputServerSubsystem::ApplySprintIfPending`: if
the latch is unset, do nothing; otherwise set `MaxWalkSpeed` on the
possessed character's movement component (if both exist) and reset the
latch unconditionally. -/
def applySprintIfPending (cfg : Config) (st : SchedulerState) (w : World) :
    SchedulerState × World :=
  match st.pendingSprintEnabled with
  | none => (st, w)
  | some enabled =>
    let w' :=
      match w.character with
      | some c =>
        if c.hasMoveComp then
          let c' :=
            { c with maxWalkSpeed :=
                if enabled then cfg.sprintWalkSpeed else cfg.normalWalkSpeed }
          { w with character := some c' }
        else w
      | none => w
    ({ st with pendingSprintEnabled := none }, w')

/-- Modelled from the spec: a non-blocking client socket as the drain loop
sees it — a liveness flag (`GetConnectionState`) and the bytes currently
available to `Recv` (available even after the peer closed, as TCP buffers
survive a remote close). -/
structure Socket where
  connected : Bool
  incoming : List Char
deriving DecidableEq

/-- Embedding of `FStrandsClientState`: the socket (null after close) and
the per-connection accumulator `Pending`. -/
structure ClientState where
  socket : Option Socket
  pending : List Char
deriving DecidableEq

/-- Work loop of the shared drain loop, with an explicit recursion bound:
each `Recv` consumes at least one byte, so the number of available bytes
bounds the number of iterations, and callers pass `length + 1` as fuel
(`drainDataGo_fuel` shows any adequate fuel gives the same result). -/
def drainDataGo (cfg : Config) (now : Rat) :
    Nat → List Char → List Char → SchedulerState → IngestEffects →
    List Char × SchedulerState × IngestEffects
  | 0, _, pending, st, eff => (pending, st, eff)
  | fuel + 1, incoming, pending, st, eff =>
    if incoming.isEmpty then (pending, st, eff)
    else
      let toRead := min incoming.length 65536
      let chunk := incoming.take toRead
      let rest := incoming.drop toRead
      let pending2 := pending ++ chunk
      let sp := strandsSplitLines pending2
      let pr := processLines cfg now sp.1 st eff
      drainDataGo cfg now fuel rest sp.2 pr.1 pr.2

/-- Embedding of the shared drain loop (`DrainClient` and the identical loop
in `PollClients`): while data is pending (`HasPendingData`), `Recv` up to
64 KiB, append the chunk to the accumulator, split out complete lines and
process each.  Returns the leftover accumulator and the updated scheduler
state/effects. -/
def drainData (cfg : Config) (now : Rat) (incoming pending : List Char)
    (st : SchedulerState) (eff : IngestEffects) :
    List Char × SchedulerState × IngestEffects :=
  drainDataGo cfg now (incoming.length + 1) incoming pending st eff

/-- One client's step of `PollClients` in the primary subsystem source
(`src/unnamed/part_003`): a null socket is dropped; otherwise all pending
data is drained FIRST, and only then is a not-connected socket closed,
destroyed and removed. Returns the surviving client (if any). -/
def pollStepMain (cfg : Config) (now : Rat) (client : ClientState)
    (st : SchedulerState) (eff : IngestEffects) :
    Option ClientState × SchedulerState × IngestEffects :=
  match client.socket with
  | none => (none, st, eff)
  | some sock =>
    let d := drainData cfg now sock.incoming client.pending st eff
    if sock.connected then
      (some { socket := some { sock with incoming := [] }, pending := d.1 },
       d.2.1, d.2.2)
    else (none, d.2.1, d.2.2)

/-- One client's step of `PollClients` in the packaged plugin copy
(`...Package/HostProject/...`): the liveness check comes FIRST, so a
not-connected socket is closed and removed before any drain; only a
connected socket has its pending data drained. -/
def pollStepPackaged (cfg : Config) (now : Rat) (client : ClientState)
    (st : SchedulerState) (eff : IngestEffects) :
    Option ClientState × SchedulerState × IngestEffects :=
  match client.socket with
  | none => (none, st, eff)
  | some sock =>
    if sock.connected then
      let d := drainData cfg now sock.incoming client.pending st eff
      (some { socket := some { sock with incoming := [] }, pending := d.1 },
       d.2.1, d.2.2)
    else (none, st, eff)

/-- Embedding of `PollClients` (primary source): the C++ loop iterates
backwards so it can `RemoveAtSwap` dead clients; the embedding processes the
tail (higher indices) first accordingly, keeping survivors. -/
def pollClientsMain (cfg : Config) (now : Rat) :
    List ClientState → SchedulerState → IngestEffects →
    List ClientState × SchedulerState × IngestEffects
  | [], st, eff => ([], st, eff)
  | c :: cs, st, eff =>
    let t := pollClientsMain cfg now cs st eff
    let s := pollStepMain cfg now c t.2.1 t.2.2
    match s.1 with
    | some c' => (c' :: t.1, s.2.1, s.2.2)
    | none => (t.1, s.2.1, s.2.2)

/-- Embedding of `PollClients` (packaged copy): same loop shape, but with
the liveness-first per-client step. -/
def pollClientsPackaged (cfg : Config) (now : Rat) :
    List ClientState → SchedulerState → IngestEffects →
    List ClientState × SchedulerState × IngestEffects
  | [], st, eff => ([], st, eff)
  | c :: cs, st, eff =>
    let t := pollClientsPackaged cfg now cs st eff
    let s := pollStepPackaged cfg now c t.2.1 t.2.2
    match s.1 with
    | some c' => (c' :: t.1, s.2.1, s.2.2)
    | none => (t.1, s.2.1, s.2.2)

/-- The whole subsystem state: running flag, listener, client registry and
scheduler state. -/
structure ServerState where
  running : Bool
  listenerValid : Bool
  clients : List ClientState
  sched : SchedulerState
deriving DecidableEq

/-- Embedding of `UStrandsInputServerSubsystem::StopServer`: clear the
running flag, close/destroy every client socket and empty the registry,
release the listener.  The action pools, jump counter and sprint latch are
not touched. -/
def stopServer (s : ServerState) : ServerState :=
  { s with running := false, clients := [], listenerValid := false }

/-- Embedding of `UStrandsInputServerSubsystem::Tick`: poll clients only
while running, then unconditionally resolve and apply scheduled actions and
the sprint latch. -/
def tickServer (cfg : Config) (now dt : Rat) (s : ServerState) (w : World) :
    ServerState × World × ApplyOutcome × IngestEffects :=
  let polled :=
    if s.running then pollClientsMain cfg now s.clients s.sched noEffects
    else (s.clients, s.sched, noEffects)
  let out := applyScheduledActions now dt polled.2.1 w
  let sp := applySprintIfPending cfg out.sched w
  ({ s with clients := polled.1, sched := sp.1 }, sp.2, out, polled.2.2)

/-- A 3-vector over exact rationals (`FVector`). -/
structure Vec3 where
  x : Rat
  y : Rat
  z : Rat
deriving DecidableEq

/-- Componentwise vector addition. -/
def Vec3.add (a b : Vec3) : Vec3 := ⟨a.x + b.x, a.y + b.y, a.z + b.z⟩

/-- Scalar multiple of a vector. -/
def Vec3.scale (a : Vec3) (s : Rat) : Vec3 := ⟨a.x * s, a.y * s, a.z * s⟩

/-- Vector negation. -/
def Vec3.neg (a : Vec3) : Vec3 := ⟨-a.x, -a.y, -a.z⟩

/-- The pawn data `BuildWorldState` reads for its probes: location, basis
vectors, and the capsule half height (`GetScaledCapsuleHalfHeight`, or the
default `88` when no character/capsule is available). -/
structure PawnProbe where
  location : Vec3
  forward : Vec3
  right : Vec3
  up : Vec3
  halfHeight : Rat
deriving DecidableEq

/-- The trace section of a `WorldStateSnapshot`: the six probe distances and
the derived `blocked.forward` flag. -/
structure TraceReport where
  forwardKnee : Rat
  forwardWaist : Rat
  forwardChest : Rat
  leftWaist : Rat
  rightWaist : Rat
  downDist : Rat
  blockedForward : Bool
deriving DecidableEq

/-- Embedding of the `TraceDist` lambda in `BuildWorldState`: `hit` is the
engine line trace (`LineTraceSingleByChannel`), abstracted as an oracle from
(start, direction, length) to the hit distance, `none` when nothing within
`length` is hit; on a miss the probe reports the full length. -/
def traceDist (hit : Vec3 → Vec3 → Rat → Option Rat)
    (start dir : Vec3) (length : Rat) : Rat :=
  match hit start dir length with
  | some d => d
  | none => length

/-- Embedding of the probe section of
`UStrandsInputServerSubsystem::BuildWorldState`: with no pawn every distance
stays `0`; with a pawn, cast the six probes (forward at knee/waist/chest
heights with range 200, left/right at waist height with range 200, straight
down with range 300) and derive
`blocked.forward = (ForwardWaist > 0 && ForwardWaist < 100)`. -/
def buildTraceReport (hit : Vec3 → Vec3 → Rat → Option Rat)
    (pawn : Option PawnProbe) : TraceReport :=
  match pawn with
  | none =>
    { forwardKnee := 0, forwardWaist := 0, forwardChest := 0,
      leftWaist := 0, rightWaist := 0, downDist := 0,
      blockedForward := decide ((0 : Rat) > 0) && decide ((0 : Rat) < 100) }
  | some p =>
    let kneeStart := p.location.add (p.up.scale (50 - p.halfHeight))
    let waistStart := p.location.add (p.up.scale (90 - p.halfHeight))
    let chestStart := p.location.add (p.up.scale (140 - p.halfHeight))
    let forwardKnee := traceDist hit kneeStart p.forward 200
    let forwardWaist := traceDist hit waistStart p.forward 200
    let forwardChest := traceDist hit chestStart p.forward 200
    let leftWaist := traceDist hit waistStart p.right.neg 200
    let rightWaist := traceDist hit waistStart p.right 200
    let downDist := traceDist hit p.location p.up.neg 300
    { forwardKnee := forwardKnee, forwardWaist := forwardWaist,
      forwardChest := forwardChest, leftWaist := leftWaist,
      rightWaist := rightWaist, downDist := downDist,
      blockedForward := decide (forwardWaist > 0) && decide (forwardWaist < 100) }

/-- Sample configuration matching the defaults in
`StrandsInputServerSubsystem.h` / `StrandsInputServerSettings.h`. -/
def cfg0 : Config :=
  { defaultMoveDuration := 1/4, defaultLookDuration := 1/5,
    normalWalkSpeed := 600, sprintWalkSpeed := 1000,
    defaultScreenshotPath := "Saved/AutoScreenshot.png",
    defaultStatePath := "Saved/WorldState/agent_state.json" }

/-- The line `\x7b"cmd":"jump"\x7d`. -/
def jumpLine : List Char := "\x7b\"cmd\":\"jump\"\x7d".data

/-- The line `\x7b"cmd":"move","forward":1\x7d`. -/
def moveLine : List Char := "\x7b\"cmd\":\"move\",\"forward\":1\x7d".data

/-- The byte stream of the spec's property P5: a jump command, LF, a move
command, CRLF. -/
def streamP5 : List Char :=
  "\x7b\"cmd\":\"jump\"\x7d\n\x7b\"cmd\":\"move\",\"forward\":1\x7d\x0d\n".data

/-- The byte stream of the spec's property P6: a malformed line, then a jump
command. -/
def streamP6 : List Char := "not json\n\x7b\"cmd\":\"jump\"\x7d\n".data

/-- The jump command line followed by LF (a complete frame on the wire). -/
def jumpStream : List Char := "\x7b\"cmd\":\"jump\"\x7d\n".data

/-- A parsed sprint command whose `enabled` value is a number, not a
boolean. -/
def sprintObjBadEnabled : List (String × JsonValue) :=
  [ ("cmd", JsonValue.jstr "sprint"), ("enabled", JsonValue.jnum 1) ]

/-- A valid JSON object line with no `cmd` field. -/
def noCmdLine : List Char := "\x7b\"x\":1\x7d".data

/-- A parsed sprint command with a boolean `enabled` value `false`. -/
def sprintObjFalse : List (String × JsonValue) :=
  [ ("cmd", JsonValue.jstr "sprint"), ("enabled", JsonValue.jbool false) ]

/-- Scheduler state with exactly one pending jump. -/
def stJump : SchedulerState := { emptyScheduler with pendingJumpCount := 1 }

/-- Scheduler state with the sprint latch pending `true`. -/
def stSprintTrue : SchedulerState :=
  { emptyScheduler with pendingSprintEnabled := some true }

/-- A possessed character with a movement component at the normal walk
speed. -/
def charNormal : ControlledCharacter := { hasMoveComp := true, maxWalkSpeed := 600 }

/-- World with a possessed character. -/
def wChar : World := { character := some charNormal, pawnWithoutCharacter := false }

/-- World with nothing possessed. -/
def wNone : World := { character := none, pawnWithoutCharacter := false }

/-- Trace oracle hitting nothing anywhere (no obstructions in range). -/
def hitMiss : Vec3 → Vec3 → Rat → Option Rat := fun _ _ _ => none

/-- The pawn of the spec's property P7: position `(10,20,30)`, yaw 90
(forward `(0,1,0)`, right `(-1,0,0)`), default capsule half height. -/
def pawnP7 : PawnProbe :=
  { location := ⟨10, 20, 30⟩, forward := ⟨0, 1, 0⟩, right := ⟨-1, 0, 0⟩,
    up := ⟨0, 0, 1⟩, halfHeight := 88 }

lemma breakAtNewline_rest_lt :
    ∀ (cs l r : List Char), breakAtNewline cs = some (l, r) → r.length < cs.length := by
  intro cs
  induction cs with
  | nil => intro l r h; simp [breakAtNewline] at h
  | cons c cs ih =>
    intro l r h
    unfold breakAtNewline at h
    by_cases hc : c = '\n'
    · rw [if_pos hc] at h
      cases h
      simp
    · rw [if_neg hc] at h
      cases hbreak : breakAtNewline cs with
      | none => rw [hbreak] at h; cases h
      | some p =>
        rw [hbreak] at h
        cases p with
        | mk l0 r0 =>
          simp only [Option.some.injEq, Prod.mk.injEq] at h
          obtain ⟨h1, h2⟩ := h
          subst h2
          exact Nat.lt_succ_of_lt (ih l0 r0 hbreak)

lemma splitLinesGo_fuel :
    ∀ (f1 f2 : Nat) (acc : List Char), acc.length < f1 → acc.length < f2 →
      splitLinesGo f1 acc = splitLinesGo f2 acc := by
  intro f1
  induction f1 with
  | zero => intro f2 acc h1 h2; omega
  | succ f1 ih =>
    intro f2 acc h1 h2
    cases f2 with
    | zero => omega
    | succ f2 =>
      show splitLinesGo (f1 + 1) acc = splitLinesGo (f2 + 1) acc
      unfold splitLinesGo
      cases hb : breakAtNewline acc with
      | none => rfl
      | some p =>
        cases p with
        | mk line rest =>
          have hlt := breakAtNewline_rest_lt acc line rest hb
          have : splitLinesGo f1 rest = splitLinesGo f2 rest :=
            ih f2 rest (by omega) (by omega)
          simp only [this]

lemma strandsSplitLines_break_none (acc : List Char)
    (h : breakAtNewline acc = none) : strandsSplitLines acc = ([], acc) := by
  unfold strandsSplitLines splitLinesGo
  rw [h]

lemma strandsSplitLines_break_some (acc line rest : List Char)
    (h : breakAtNewline acc = some (line, rest)) :
    strandsSplitLines acc =
      (if (trimStartAndEnd line).isEmpty then strandsSplitLines rest
       else
         ((if (trimStartAndEnd line).getLast? == some '\x0d' then
             (trimStartAndEnd line).dropLast
           else trimStartAndEnd line) :: (strandsSplitLines rest).1,
          (strandsSplitLines rest).2)) := by
  have hlt := breakAtNewline_rest_lt acc line rest h
  show splitLinesGo (acc.length + 1) acc = _
  unfold splitLinesGo
  rw [h]
  have hfuel : splitLinesGo acc.length rest = splitLinesGo (rest.length + 1) rest :=
    splitLinesGo_fuel _ _ rest (by omega) (by omega)
  simp only [hfuel]
  rfl

lemma drainDataGo_fuel (cfg : Config) (now : Rat) :
    ∀ (f1 f2 : Nat) (incoming pending : List Char) (st : SchedulerState)
      (eff : IngestEffects), incoming.length < f1 → incoming.length < f2 →
      drainDataGo cfg now f1 incoming pending st eff =
        drainDataGo cfg now f2 incoming pending st eff := by
  intro f1
  induction f1 with
  | zero => intro f2 incoming pending st eff h1 h2; omega
  | succ f1 ih =>
    intro f2 incoming pending st eff h1 h2
    cases f2 with
    | zero => omega
    | succ f2 =>
      show drainDataGo cfg now (f1 + 1) incoming pending st eff = _
      unfold drainDataGo
      by_cases hemp : incoming.isEmpty
      · rw [if_pos hemp, if_pos hemp]
      · rw [if_neg hemp, if_neg hemp]
        have hpos : 0 < incoming.length := by
          cases incoming with
          | nil => simp at hemp
          | cons a l => simp
        exact ih f2 _ _ _ _ (by simp only [List.length_drop]; omega)
          (by simp only [List.length_drop]; omega)

lemma drainData_empty (cfg : Config) (now : Rat) (pending : List Char)
    (st : SchedulerState) (eff : IngestEffects) :
    drainData cfg now [] pending st eff = (pending, st, eff) := rfl

lemma drainData_step (cfg : Config) (now : Rat) (incoming pending : List Char)
    (st : SchedulerState) (eff : IngestEffects) (hne : incoming ≠ []) :
    drainData cfg now incoming pending st eff =
      drainData cfg now (incoming.drop (min incoming.length 65536))
        (strandsSplitLines (pending ++ incoming.take (min incoming.length 65536))).2
        (processLines cfg now
          (strandsSplitLines (pending ++ incoming.take (min incoming.length 65536))).1
          st eff).1
        (processLines cfg now
          (strandsSplitLines (pending ++ incoming.take (min incoming.length 65536))).1
          st eff).2 := by
  show drainDataGo cfg now (incoming.length + 1) incoming pending st eff = _
  unfold drainDataGo
  have hemp : incoming.isEmpty = false := by
    cases incoming with
    | nil => exact absurd rfl hne
    | cons a l => rfl
  rw [hemp]
  simp only [Bool.false_eq_true, if_false]
  have hpos : 0 < incoming.length := by
    cases incoming with
    | nil => exact absurd rfl hne
    | cons a l => simp
  apply drainDataGo_fuel
  · simp only [List.length_drop]; omega
  · simp only [List.length_drop]; omega

lemma processLines_append (cfg : Config) (now : Rat) :
    ∀ (l1 l2 : List (List Char)) (st : SchedulerState) (eff : IngestEffects),
      processLines cfg now (l1 ++ l2) st eff =
        processLines cfg now l2 (processLines cfg now l1 st eff).1
          (processLines cfg now l1 st eff).2 := by
  intro l1
  induction l1 with
  | nil => intro l2 st eff; rfl
  | cons l ls ih =>
    intro l2 st eff
    simp only [List.cons_append, processLines]
    exact ih l2 _ _

lemma breakAtNewline_append_some :
    ∀ (x y l r : List Char), breakAtNewline x = some (l, r) →
      breakAtNewline (x ++ y) = some (l, r ++ y) := by
  intro x
  induction x with
  | nil => intro y l r h; simp [breakAtNewline] at h
  | cons c cs ih =>
    intro y l r h
    simp only [breakAtNewline] at h ⊢
    by_cases hc : c = '\n'
    · rw [if_pos hc] at h ⊢
      cases h
      rfl
    · rw [if_neg hc] at h ⊢
      cases hbreak : breakAtNewline cs with
      | none => rw [hbreak] at h; cases h
      | some p =>
        rw [hbreak] at h
        cases p with
        | mk l0 r0 =>
          simp only [Option.some.injEq, Prod.mk.injEq] at h
          obtain ⟨h1, h2⟩ := h
          subst h1; subst h2
          rw [List.append_eq, ih y l0 r0 hbreak]

lemma splitLines_leftover_aux :
    ∀ (n : Nat) (acc : List Char), acc.length ≤ n →
      breakAtNewline (strandsSplitLines acc).2 = none := by
  intro n
  induction n with
  | zero =>
    intro acc h
    have hnil : acc = [] := by
      cases acc with
      | nil => rfl
      | cons a l => simp at h
    subst hnil
    rfl
  | succ n ih =>
    intro acc h
    cases hb : breakAtNewline acc with
    | none =>
      rw [strandsSplitLines_break_none acc hb]
      exact hb
    | some p =>
      cases p with
      | mk line rest =>
        rw [strandsSplitLines_break_some acc line rest hb]
        have hlt := breakAtNewline_rest_lt acc line rest hb
        have ihr := ih rest (by omega)
        by_cases ht : (trimStartAndEnd line).isEmpty
        · simp only [ht, if_true]
          exact ihr
        · simp only [ht, Bool.false_eq_true, if_false]
          exact ihr

lemma splitLines_leftover (acc : List Char) :
    breakAtNewline (strandsSplitLines acc).2 = none :=
  splitLines_leftover_aux acc.length acc le_rfl

lemma splitLines_append_aux :
    ∀ (n : Nat) (x y : List Char), x.length ≤ n →
      strandsSplitLines (x ++ y) =
        ((strandsSplitLines x).1 ++
           (strandsSplitLines ((strandsSplitLines x).2 ++ y)).1,
         (strandsSplitLines ((strandsSplitLines x).2 ++ y)).2) := by
  intro n
  induction n with
  | zero =>
    intro x y h
    have hnil : x = [] := by
      cases x with
      | nil => rfl
      | cons a l => simp at h
    subst hnil
    simp only [List.nil_append]
    rfl
  | succ n ih =>
    intro x y h
    cases hb : breakAtNewline x with
    | none =>
      rw [strandsSplitLines_break_none x hb]
      simp only [List.nil_append]
    | some p =>
      cases p with
      | mk line rest =>
        have hxy : breakAtNewline (x ++ y) = some (line, rest ++ y) :=
          breakAtNewline_append_some x y line rest hb
        rw [strandsSplitLines_break_some (x ++ y) line (rest ++ y) hxy,
            strandsSplitLines_break_some x line rest hb]
        have hlt := breakAtNewline_rest_lt x line rest hb
        have ihr := ih rest y (by omega)
        rw [ihr]
        by_cases ht : (trimStartAndEnd line).isEmpty
        · simp only [ht, if_true]
        · simp only [ht, Bool.false_eq_true, if_false, List.cons_append]

lemma splitLines_append (x y : List Char) :
    strandsSplitLines (x ++ y) =
      ((strandsSplitLines x).1 ++
         (strandsSplitLines ((strandsSplitLines x).2 ++ y)).1,
       (strandsSplitLines ((strandsSplitLines x).2 ++ y)).2) :=
  splitLines_append_aux x.length x y le_rfl

lemma drainData_batch_aux (cfg : Config) (now : Rat) :
    ∀ (n : Nat) (incoming pending : List Char) (st : SchedulerState)
      (eff : IngestEffects), incoming.length ≤ n →
      breakAtNewline pending = none →
      drainData cfg now incoming pending st eff =
        ((strandsSplitLines (pending ++ incoming)).2,
         processLines cfg now (strandsSplitLines (pending ++ incoming)).1 st eff) := by
  intro n
  induction n with
  | zero =>
    intro incoming pending st eff h hpend
    have hnil : incoming = [] := by
      cases incoming with
      | nil => rfl
      | cons a l => simp at h
    subst hnil
    rw [drainData_empty, List.append_nil,
        strandsSplitLines_break_none pending hpend]
    rfl
  | succ n ih =>
    intro incoming pending st eff h hpend
    by_cases hne : incoming = []
    · subst hne
      rw [drainData_empty, List.append_nil,
          strandsSplitLines_break_none pending hpend]
      rfl
    · rw [drainData_step cfg now incoming pending st eff hne]
      have hpos : 0 < incoming.length := by
        cases incoming with
        | nil => exact absurd rfl hne
        | cons a l => simp
      have hk : 0 < min incoming.length 65536 := by omega
      have hrest : (incoming.drop (min incoming.length 65536)).length ≤ n := by
        simp only [List.length_drop]; omega
      have hleft :
          breakAtNewline
            (strandsSplitLines (pending ++ incoming.take (min incoming.length 65536))).2 =
            none := splitLines_leftover _
      rw [ih _ _ _ _ hrest hleft]
      have hsplit : pending ++ incoming =
          (pending ++ incoming.take (min incoming.length 65536)) ++
            incoming.drop (min incoming.length 65536) := by
        rw [List.append_assoc, List.take_append_drop]
      rw [hsplit, splitLines_append (pending ++ incoming.take (min incoming.length 65536))
            (incoming.drop (min incoming.length 65536))]
      rw [processLines_append]

lemma drainData_batch (cfg : Config) (now : Rat) (incoming pending : List Char)
    (st : SchedulerState) (eff : IngestEffects)
    (hpend : breakAtNewline pending = none) :
    drainData cfg now incoming pending st eff =
      ((strandsSplitLines (pending ++ incoming)).2,
       processLines cfg now (strandsSplitLines (pending ++ incoming)).1 st eff) :=
  drainData_batch_aux cfg now incoming.length incoming pending st eff le_rfl hpend

lemma sweepMove_spec (now : Rat) (l : List MoveAction) :
    sweepMove now l =
      (l.filter (fun a => decide (now < a.endTime)),
       ((l.filter (fun a => decide (now < a.endTime))).map MoveAction.axisForward).sum,
       ((l.filter (fun a => decide (now < a.endTime))).map MoveAction.axisRight).sum) := by
  induction l with
  | nil => simp [sweepMove]
  | cons a rest ih =>
    by_cases h : a.endTime ≤ now
    · have h2 : ¬ (now < a.endTime) := not_lt.mpr h
      simp [sweepMove, if_pos h, ih, h2, List.filter_cons]
    · have h2 : now < a.endTime := not_le.mp h
      simp only [sweepMove, if_neg h, ih, List.filter_cons, decide_eq_true h2, if_true,
        List.map_cons, List.sum_cons, Prod.mk.injEq, true_and]
      constructor <;> ring

lemma clampUnit_bounds (x : Rat) : -1 ≤ clampUnit x ∧ clampUnit x ≤ 1 := by
  unfold clampUnit
  split_ifs with h1 h2
  · constructor <;> norm_num
  · constructor <;> [linarith [not_lt.mp h1]; linarith]
  · constructor <;> norm_num

lemma strEqCI_congr_left {a b : String} (c : String)
    (h : strEqCI a b = true) : strEqCI a c = strEqCI b c := by
  simp only [strEqCI, beq_iff_eq] at h
  simp only [strEqCI, h]

lemma getStringField_of_not_typed {obj : List (String × JsonValue)} {name : String}
    (h : hasTypedStringField obj name = false) : getStringField obj name = "" := by
  unfold hasTypedStringField at h
  unfold getStringField
  cases hf : getField? obj name with
  | none => rfl
  | some v =>
    rw [hf] at h
    cases v with
    | jstr s => simp at h
    | jnull => rfl
    | jbool b => rfl
    | jnum q => rfl
    | jarr es => rfl
    | jobj fs => rfl

/-- C1: for every set of ingested Move commands and every resolve time
`now`, the resolved move axis equals the componentwise sum of the axis
vectors of all move actions whose expiry is strictly after `now`, with each
component then clamped independently to `[-1, 1]`; move actions with
`expiresAt ≤ now` contribute nothing to the sum and are removed from the
pool. -/
theorem C1_moveAxis_resolve_clamped_sum (now dt : Rat) (st : SchedulerState) (w : World) :
    (applyScheduledActions now dt st w).moveAxis =
      (clampUnit (((st.moveActions.filter (fun a => decide (now < a.endTime))).map
          MoveAction.axisForward).sum),
       clampUnit (((st.moveActions.filter (fun a => decide (now < a.endTime))).map
          MoveAction.axisRight).sum)) ∧
    (applyScheduledActions now dt st w).sched.moveActions =
      st.moveActions.filter (fun a => decide (now < a.endTime)) ∧
    -1 ≤ (applyScheduledActions now dt st w).moveAxis.1 ∧
    (applyScheduledActions now dt st w).moveAxis.1 ≤ 1 ∧
    -1 ≤ (applyScheduledActions now dt st w).moveAxis.2 ∧
    (applyScheduledActions now dt st w).moveAxis.2 ≤ 1 := by
  have hs := sweepMove_spec now st.moveActions
  refine ⟨?_, ?_, ?_, ?_, ?_, ?_⟩
  · show (clampUnit (sweepMove now st.moveActions).2.1,
        clampUnit (sweepMove now st.moveActions).2.2) = _
    rw [hs]
  · show (sweepMove now st.moveActions).1 = _
    rw [hs]
  · exact (clampUnit_bounds _).1
  · exact (clampUnit_bounds _).2
  · exact (clampUnit_bounds _).1
  · exact (clampUnit_bounds _).2

/-- C2 counterexample: one ingested Jump gives `pendingJumpCount = 1`, but a
resolve pass at a time when no character is bound does NOT reset the counter
to 0 — contradicting the claim's "regardless of whether a controlled entity
is bound at resolve time". -/
theorem C2_jump_counter_not_reset_without_character :
    (processLine cfg0 0 jumpLine emptyScheduler noEffects).1 = stJump ∧
    (applyScheduledActions 1 1 stJump wNone).sched.pendingJumpCount = 1 ∧
    ¬ ((applyScheduledActions 1 1 stJump wNone).sched.pendingJumpCount = 0) := by
  refine ⟨by with_unfolding_all rfl, by with_unfolding_all rfl, ?_⟩
  intro h
  rw [show (applyScheduledActions 1 1 stJump wNone).sched.pendingJumpCount = 1
      from by with_unfolding_all rfl] at h
  cases h

/-- C2 (amended): a resolve pass reads the jump counter and resets it to 0
only when a controlled character is bound at resolve time — then one
ingested Jump yields `jumpCount = 1` applied and a second resolve yields
`jumpCount = 0`; with no character bound the counter is left unchanged. -/
theorem C2_jump_counter_consumed_only_with_character (now dt : Rat)
    (st : SchedulerState) (w : World) :
    (w.character.isSome = true →
      (applyScheduledActions now dt st w).jumpInvocations = st.pendingJumpCount ∧
      (applyScheduledActions now dt st w).sched.pendingJumpCount = 0) ∧
    (w.character = none →
      (applyScheduledActions now dt st w).jumpInvocations = 0 ∧
      (applyScheduledActions now dt st w).sched.pendingJumpCount = st.pendingJumpCount) := by
  constructor
  · intro hc
    unfold applyScheduledActions
    by_cases hj : st.pendingJumpCount > 0
    · simp [hc, hj]
    · simp [hc, hj]
      omega
  · intro hc
    unfold applyScheduledActions
    simp [hc]

/-- Witness for C2's amended theorem: with a character bound, one pending
jump is applied once and the counter resets; the next resolve applies no
jump. -/
theorem C2_jump_counter_consumed_only_with_character_witness :
    (applyScheduledActions 0 1 stJump wChar).jumpInvocations = 1 ∧
    (applyScheduledActions 0 1 stJump wChar).sched.pendingJumpCount = 0 ∧
    (applyScheduledActions 0 1 (applyScheduledActions 0 1 stJump wChar).sched
        wChar).jumpInvocations = 0 := by
  have h := (C2_jump_counter_consumed_only_with_character 0 1 stJump wChar).1 (by decide)
  have h2 := (C2_jump_counter_consumed_only_with_character 0 1
      (applyScheduledActions 0 1 stJump wChar).sched wChar).1 (by decide)
  exact ⟨h.1.trans (by with_unfolding_all rfl), h.2, by rw [h2.1, h.2]⟩

/-- C4: the byte stream of the spec's P5 — a jump line terminated by LF and
a move line terminated by CRLF — is framed into exactly two lines (the
trailing CR stripped, no empty frames) which decode, in order, to `Jump` and
to `Move` with `forward = 1`, `right = 0` and the configured default move
duration. -/
theorem C4_framer_decoder_p5_stream (cfg : Config) :
    (strandsSplitLines streamP5).1.map (decodeLine cfg) =
      [ some Command.jump, some (Command.move 1 0 cfg.defaultMoveDuration) ] ∧
    (strandsSplitLines streamP5).2 = [] ∧
    (strandsSplitLines ("\n \n\x0d\n".data)).1 = [] := by
  refine ⟨?_, ?_, ?_⟩
  · with_unfolding_all rfl
  · with_unfolding_all rfl
  · with_unfolding_all rfl

/-- C9: stopping the server mutates only the connection set and the
listener: the scheduler state (pools, jump counter, sprint latch) is
untouched, and a tick of the stopped server still resolves and applies that
remaining scheduled state. -/
theorem C9_stop_preserves_scheduler_and_tick_still_applies (cfg : Config)
    (now dt : Rat) (s : ServerState) (w : World) :
    (stopServer s).sched = s.sched ∧
    (stopServer s).running = false ∧
    (stopServer s).clients = [] ∧
    (stopServer s).listenerValid = false ∧
    (tickServer cfg now dt (stopServer s) w).2.2.1 =
      applyScheduledActions now dt s.sched w ∧
    (tickServer cfg now dt (stopServer s) w).1.sched =
      (applySprintIfPending cfg (applyScheduledActions now dt s.sched w).sched w).1 ∧
    (tickServer cfg now dt (stopServer s) w).2.1 =
      (applySprintIfPending cfg (applyScheduledActions now dt s.sched w).sched w).2 ∧
    (tickServer cfg now dt (stopServer s) w).1.clients = [] :=
  ⟨rfl, rfl, rfl, rfl, rfl, rfl, rfl, rfl⟩

/-- C3 (amended): in the primary subsystem source (`src/unnamed/part_003`)
each `PollClients` pass per connection reads all currently available bytes
(in chunks of at most 64 KiB per `Recv`, looped until none remain), feeds
them to the framer and command processing, and only after that drain checks
liveness; a not-connected connection is removed only after the drain, so its
scheduler/effects outcome equals that of a still-live connection with the
same bytes, namely the batch framing of the whole byte sequence.  (The
packaged plugin copy instead checks liveness first; see the
counterexample.) -/
theorem C3_poll_drains_before_liveness (cfg : Config) (now : Rat)
    (bytes pending : List Char) (st : SchedulerState) (eff : IngestEffects)
    (hpend : breakAtNewline pending = none) :
    (pollClientsMain cfg now
        [ { socket := some { connected := false, incoming := bytes },
            pending := pending } ] st eff).2 =
      (pollClientsMain cfg now
        [ { socket := some { connected := true, incoming := bytes },
            pending := pending } ] st eff).2 ∧
    (pollClientsMain cfg now
        [ { socket := some { connected := false, incoming := bytes },
            pending := pending } ] st eff).1 = [] ∧
    (pollClientsMain cfg now
        [ { socket := some { connected := false, incoming := bytes },
            pending := pending } ] st eff).2 =
      processLines cfg now (strandsSplitLines (pending ++ bytes)).1 st eff := by
  have hb := drainData_batch cfg now bytes pending st eff hpend
  refine ⟨rfl, rfl, ?_⟩
  show ((drainData cfg now bytes pending st eff).2.1,
        (drainData cfg now bytes pending st eff).2.2) = _
  rw [hb]

/-- Witness for C3's amended theorem: an empty accumulator and a complete
jump frame in the buffer of a closed connection. -/
theorem C3_poll_drains_before_liveness_witness :
    breakAtNewline ([] : List Char) = none ∧
    (pollClientsMain cfg0 0
        [ { socket := some { connected := false, incoming := jumpStream },
            pending := [] } ] emptyScheduler noEffects).2 =
      processLines cfg0 0 (strandsSplitLines ([] ++ jumpStream)).1
        emptyScheduler noEffects :=
  ⟨rfl, (C3_poll_drains_before_liveness cfg0 0 jumpStream [] emptyScheduler
      noEffects rfl).2.2⟩

/-- C3 counterexample: the packaged plugin copy
(`...Package/HostProject/...`) checks liveness before draining, so a
connection whose peer closed with a complete jump command still buffered is
removed with the bytes unprocessed (jump counter stays 0), whereas the
primary source processes them (jump counter becomes 1). -/
theorem C3_packaged_poll_drops_preclose_bytes :
    pollClientsPackaged cfg0 0
        [ { socket := some { connected := false, incoming := jumpStream },
            pending := [] } ] emptyScheduler noEffects =
      ([], emptyScheduler, noEffects) ∧
    (pollClientsMain cfg0 0
        [ { socket := some { connected := false, incoming := jumpStream },
            pending := [] } ] emptyScheduler noEffects).2.1.pendingJumpCount = 1 := by
  constructor
  · with_unfolding_all rfl
  · with_unfolding_all rfl

/-- C5: a sprint command whose `enabled` field is absent, or present with a
non-boolean JSON value, is a complete no-op: the sprint latch and all other
scheduler state are unchanged, no output is produced, and processing returns
normally (no error). -/
theorem C5_sprint_invalid_enabled_noop (cfg : Config) (now : Rat)
    (obj : List (String × JsonValue)) (st : SchedulerState) (eff : IngestEffects)
    (hcmd : strEqCI (getStringField obj "cmd") "sprint" = true)
    (hbad : hasField obj "enabled" = false ∨ tryGetBoolField obj "enabled" = none) :
    processParsed cfg now obj st eff = (st, eff) := by
  have hmove : strEqCI (getStringField obj "cmd") "move" = false :=
    (strEqCI_congr_left "move" hcmd).trans (by decide)
  have hlook : strEqCI (getStringField obj "cmd") "look" = false :=
    (strEqCI_congr_left "look" hcmd).trans (by decide)
  have hjump : strEqCI (getStringField obj "cmd") "jump" = false :=
    (strEqCI_congr_left "jump" hcmd).trans (by decide)
  unfold processParsed
  simp only [hmove, hlook, hjump, hcmd, Bool.false_eq_true, if_false, if_true]
  rcases hbad with hajs | hnb
  · simp only [hajs, Bool.false_eq_true, if_false]
  · by_cases hf : hasField obj "enabled"
    · simp only [hf, if_true, hnb]
    · simp only [Bool.not_eq_true] at hf
      simp only [hf, Bool.false_eq_true, if_false]

/-- Witness for C5: a sprint command whose `enabled` value is the number 1
(not a boolean) leaves a non-trivial scheduler state untouched. -/
theorem C5_sprint_invalid_enabled_noop_witness :
    processParsed cfg0 0 sprintObjBadEnabled stJump noEffects = (stJump, noEffects) :=
  C5_sprint_invalid_enabled_noop cfg0 0 sprintObjBadEnabled stJump noEffects
    (by decide) (Or.inr (by decide))

/-- C6: the sprint latch is last-writer-wins within a frame (an ingested
sprint command overwrites any pending value), and is consumed exactly once
by the next apply pass: with a character (with movement component) bound, a
pending `Sprint(true)` sets `MaxWalkSpeed` to `sprintWalkSpeed` and resets
the latch to unset, and a further apply with no new sprint command changes
neither the scheduler state nor the world. -/
theorem C6_sprint_latch_last_writer_consumed_once (cfg : Config) (now : Rat)
    (obj : List (String × JsonValue)) (b : Bool) (st : SchedulerState)
    (eff : IngestEffects) (c : ControlledCharacter) (w : World)
    (hcmd : strEqCI (getStringField obj "cmd") "sprint" = true)
    (hb : tryGetBoolField obj "enabled" = some b)
    (hw : w.character = some c) (hmc : c.hasMoveComp = true)
    (hlatch : st.pendingSprintEnabled = some true) :
    (processParsed cfg now obj st eff).1.pendingSprintEnabled = some b ∧
    (applySprintIfPending cfg st w).1 = { st with pendingSprintEnabled := none } ∧
    (applySprintIfPending cfg st w).2.character =
      some { c with maxWalkSpeed := cfg.sprintWalkSpeed } ∧
    applySprintIfPending cfg (applySprintIfPending cfg st w).1
        (applySprintIfPending cfg st w).2 =
      ((applySprintIfPending cfg st w).1, (applySprintIfPending cfg st w).2) := by
  have hmove : strEqCI (getStringField obj "cmd") "move" = false :=
    (strEqCI_congr_left "move" hcmd).trans (by decide)
  have hlook : strEqCI (getStringField obj "cmd") "look" = false :=
    (strEqCI_congr_left "look" hcmd).trans (by decide)
  have hjump : strEqCI (getStringField obj "cmd") "jump" = false :=
    (strEqCI_congr_left "jump" hcmd).trans (by decide)
  have hfield : hasField obj "enabled" = true := by
    unfold hasField
    unfold tryGetBoolField at hb
    cases hf : getField? obj "enabled" with
    | none => rw [hf] at hb; cases hb
    | some v => rfl
  have key : applySprintIfPending cfg st w =
      ({ st with pendingSprintEnabled := none },
       { w with character := some { c with maxWalkSpeed := cfg.sprintWalkSpeed } }) := by
    unfold applySprintIfPending
    rw [hlatch, hw]
    simp only [hmc, if_true]
  refine ⟨?_, ?_, ?_, ?_⟩
  · unfold processParsed
    simp only [hmove, hlook, hjump, hcmd, Bool.false_eq_true, if_false, if_true,
      hfield, hb]
  · rw [key]
  · rw [key]
  · rw [key]
    rfl

/-- Witness for C6: a concrete sprint command overwriting a pending latch,
then one apply pass firing the latch exactly once. -/
theorem C6_sprint_latch_last_writer_consumed_once_witness :
    (processParsed cfg0 0 sprintObjFalse stSprintTrue noEffects).1.pendingSprintEnabled =
      some false ∧
    (applySprintIfPending cfg0 stSprintTrue wChar).1 =
      { stSprintTrue with pendingSprintEnabled := none } ∧
    (applySprintIfPending cfg0 stSprintTrue wChar).2.character =
      some { charNormal with maxWalkSpeed := cfg0.sprintWalkSpeed } ∧
    applySprintIfPending cfg0 (applySprintIfPending cfg0 stSprintTrue wChar).1
        (applySprintIfPending cfg0 stSprintTrue wChar).2 =
      ((applySprintIfPending cfg0 stSprintTrue wChar).1,
       (applySprintIfPending cfg0 stSprintTrue wChar).2) :=
  C6_sprint_latch_last_writer_consumed_once cfg0 0 sprintObjFalse false
    stSprintTrue noEffects charNormal wChar (by decide) (by decide) rfl rfl rfl

/-- C7: a frame that is not valid JSON (or not a JSON object) is discarded
with no change to any scheduler state and no effect, and the connection is
neither closed nor removed: draining the P6 stream (`not json`, LF, a jump
command, LF) keeps the client registered and yields exactly the one jump
command. -/
theorem C7_malformed_line_dropped_connection_kept (cfg : Config) (now : Rat)
    (st : SchedulerState) (eff : IngestEffects) (line : List Char)
    (hbad : deserializeObject line = none) :
    processLine cfg now line st eff = (st, eff) ∧
    pollClientsMain cfg now
        [ { socket := some { connected := true, incoming := streamP6 },
            pending := [] } ] st eff =
      ([ { socket := some { connected := true, incoming := [] }, pending := [] } ],
       { st with pendingJumpCount := st.pendingJumpCount + 1 }, eff) := by
  constructor
  · unfold processLine
    rw [hbad]
  · with_unfolding_all rfl

/-- Witness for C7: the literal line `not json` fails to parse and is a
no-op on a concrete scheduler state. -/
theorem C7_malformed_line_dropped_connection_kept_witness :
    deserializeObject ("not json".data) = none ∧
    processLine cfg0 0 ("not json".data) emptyScheduler noEffects =
      (emptyScheduler, noEffects) :=
  ⟨rfl, (C7_malformed_line_dropped_connection_kept cfg0 0 emptyScheduler noEffects
      ("not json".data) rfl).1⟩

/-- C8: in a world-state snapshot each of the six directional probes —
forward at knee/waist/chest heights (range 200), left/right at waist height
(range 200), straight down (range 300), each along its own ray — reports the
hit distance when its trace hits, and its own fixed maximum range when
nothing is hit; `blocked.forward` is true exactly when the forward-waist
distance is strictly between 0 and the near threshold 100; with no
obstructions in range every distance equals the probe's maximum range and
`blocked.forward` is false. -/
theorem C8_snapshot_probe_distances_and_blocked
    (hit : Vec3 → Vec3 → Rat → Option Rat) (p : PawnProbe) :
    (buildTraceReport hit (some p)).blockedForward =
      (decide ((buildTraceReport hit (some p)).forwardWaist > 0) &&
        decide ((buildTraceReport hit (some p)).forwardWaist < 100)) ∧
    (∀ d, hit (p.location.add (p.up.scale (50 - p.halfHeight))) p.forward 200 = some d →
      (buildTraceReport hit (some p)).forwardKnee = d) ∧
    (hit (p.location.add (p.up.scale (50 - p.halfHeight))) p.forward 200 = none →
      (buildTraceReport hit (some p)).forwardKnee = 200) ∧
    (∀ d, hit (p.location.add (p.up.scale (90 - p.halfHeight))) p.forward 200 = some d →
      (buildTraceReport hit (some p)).forwardWaist = d) ∧
    (hit (p.location.add (p.up.scale (90 - p.halfHeight))) p.forward 200 = none →
      (buildTraceReport hit (some p)).forwardWaist = 200) ∧
    (∀ d, hit (p.location.add (p.up.scale (140 - p.halfHeight))) p.forward 200 = some d →
      (buildTraceReport hit (some p)).forwardChest = d) ∧
    (hit (p.location.add (p.up.scale (140 - p.halfHeight))) p.forward 200 = none →
      (buildTraceReport hit (some p)).forwardChest = 200) ∧
    (∀ d, hit (p.location.add (p.up.scale (90 - p.halfHeight))) p.right.neg 200 = some d →
      (buildTraceReport hit (some p)).leftWaist = d) ∧
    (hit (p.location.add (p.up.scale (90 - p.halfHeight))) p.right.neg 200 = none →
      (buildTraceReport hit (some p)).leftWaist = 200) ∧
    (∀ d, hit (p.location.add (p.up.scale (90 - p.halfHeight))) p.right 200 = some d →
      (buildTraceReport hit (some p)).rightWaist = d) ∧
    (hit (p.location.add (p.up.scale (90 - p.halfHeight))) p.right 200 = none →
      (buildTraceReport hit (some p)).rightWaist = 200) ∧
    (∀ d, hit p.location p.up.neg 300 = some d →
      (buildTraceReport hit (some p)).downDist = d) ∧
    (hit p.location p.up.neg 300 = none →
      (buildTraceReport hit (some p)).downDist = 300) ∧
    ((∀ s d len, hit s d len = none) →
      buildTraceReport hit (some p) =
        { forwardKnee := 200, forwardWaist := 200, forwardChest := 200,
          leftWaist := 200, rightWaist := 200, downDist := 300,
          blockedForward := false }) := by
  refine ⟨rfl, ?_, ?_, ?_, ?_, ?_, ?_, ?_, ?_, ?_, ?_, ?_, ?_, ?_⟩
  · intro d hd
    unfold buildTraceReport traceDist
    simp only [hd]
  · intro hd
    unfold buildTraceReport traceDist
    simp only [hd]
  · intro d hd
    unfold buildTraceReport traceDist
    simp only [hd]
  · intro hd
    unfold buildTraceReport traceDist
    simp only [hd]
  · intro d hd
    unfold buildTraceReport traceDist
    simp only [hd]
  · intro hd
    unfold buildTraceReport traceDist
    simp only [hd]
  · intro d hd
    unfold buildTraceReport traceDist
    simp only [hd]
  · intro hd
    unfold buildTraceReport traceDist
    simp only [hd]
  · intro d hd
    unfold buildTraceReport traceDist
    simp only [hd]
  · intro hd
    unfold buildTraceReport traceDist
    simp only [hd]
  · intro d hd
    unfold buildTraceReport traceDist
    simp only [hd]
  · intro hd
    unfold buildTraceReport traceDist
    simp only [hd]
  · intro hmiss
    unfold buildTraceReport traceDist
    simp only [hmiss]
    with_unfolding_all decide

/-- Witness for C8: the P7 entity at `(10,20,30)` with yaw 90 and no
obstructions within probe range reports every trace distance equal to that
probe's maximum range and `blocked.forward = false`. -/
theorem C8_snapshot_probe_distances_and_blocked_witness :
    buildTraceReport hitMiss (some pawnP7) =
      { forwardKnee := 200, forwardWaist := 200, forwardChest := 200,
        leftWaist := 200, rightWaist := 200, downDist := 300,
        blockedForward := false } := by
  have h := C8_snapshot_probe_distances_and_blocked hitMiss pawnP7
  exact h.2.2.2.2.2.2.2.2.2.2.2.2.2 (fun _ _ _ => rfl)

/-- C10: a frame that parses as a JSON object with no `cmd` string field
changes no scheduler state and produces no screenshot request or state-file
write — it takes the same warning-only path as an unknown command name, and
the decoder view yields no command. -/
theorem C10_object_without_cmd_string_noop (cfg : Config) (now : Rat)
    (line : List Char) (obj : List (String × JsonValue)) (st : SchedulerState)
    (eff : IngestEffects)
    (hparse : deserializeObject line = some obj)
    (hnostr : hasTypedStringField obj "cmd" = false) :
    processLine cfg now line st eff = (st, eff) ∧
    decodeLine cfg line = none := by
  have hcmd : getStringField obj "cmd" = "" := getStringField_of_not_typed hnostr
  constructor
  · unfold processLine
    rw [hparse]
    unfold processParsed
    simp only [hcmd]
    with_unfolding_all rfl
  · unfold decodeLine
    rw [hparse]
    simp only [hcmd]
    with_unfolding_all rfl

/-- Witness for C10: the object line with a single non-`cmd` field is
parsed, then dropped with no state change and no decoded command. -/
theorem C10_object_without_cmd_string_noop_witness :
    deserializeObject noCmdLine = some [ ("x", JsonValue.jnum 1) ] ∧
    processLine cfg0 0 noCmdLine emptyScheduler noEffects =
      (emptyScheduler, noEffects) ∧
    decodeLine cfg0 noCmdLine = none := by
  have h := C10_object_without_cmd_string_noop cfg0 0 noCmdLine
    [ ("x", JsonValue.jnum 1) ] emptyScheduler noEffects
    (by with_unfolding_all rfl) rfl
  exact ⟨by with_unfolding_all rfl, h.1, h.2⟩

end Strands
